import Mathlib

/-!
Shallow embedding of the UDP broadcast listener
(`src/struct_monodirectional/client_class_w_selectors_papermill.ipynb`,
class `UDP_Client`).

The listener session state is the mutable part of the `UDP_Client`
object: configuration fields set in `__init__`, the `received_messages`
history and the `last_processed_id` dedup ratchet.  The receive handler
`handle_received_data`, the exit check `should_exit`, the event loop
`run_client` and `cleanup` are embedded as pure functions; network and
clock inputs (datagram bytes, sender address, local receive time,
success of the acknowledgment send) are passed in explicitly.
-/

/-- One entry of `received_messages`, as appended by
`handle_received_data`. -/
structure ReceivedRecord where
  server_ip : String
  server_port : Nat
  timestamp : String
  receive_time : String
  state : String
  message_id : Int
deriving DecidableEq

/-- The listener session state: the fields of `UDP_Client` that the
receive handler and the exit check read or mutate. -/
structure ClientState where
  client_id : String
  client_port : Nat
  max_runtime : Int
  max_messages : Int
  received_messages : List ReceivedRecord
  last_processed_id : Int
deriving DecidableEq

/-- `UDP_Client.__init__`: `received_messages = []`,
`last_processed_id = -1`. -/
def initState (client_id : String) (client_port : Nat)
    (max_runtime max_messages : Int) : ClientState :=
  { client_id := client_id
    client_port := client_port
    max_runtime := max_runtime
    max_messages := max_messages
    received_messages := []
    last_processed_id := -1 }

/-- The decoded fields of `json.loads(data.decode(..))` after
successful parsing.  Missing fields are `none`. -/
structure BroadcastMessage where
  timestamp : String
  state : String
  message_id : Int
deriving DecidableEq

/-- An inbound datagram after the decode pipeline of the handler:
`malformed` stands for bytes on which `data.decode` or `json.loads`
raises (or whose JSON value is not a mapping), `wellFormed` for a JSON
object whose three relevant fields may each be present or absent. -/
inductive RawDatagram where
  | malformed : RawDatagram
  | wellFormed (timestamp : Option String) (state : Option String)
      (message_id : Option Int) : RawDatagram
deriving DecidableEq

/-- Field extraction of the handler: `message.get("timestamp",
"unknown")`, `message.get("state", "unknown")`,
`message.get("message_id", -1)`; `none` on a raised decode error. -/
def decodeDatagram : RawDatagram → Option BroadcastMessage
  | RawDatagram.malformed => none
  | RawDatagram.wellFormed t s m =>
      some { timestamp := t.getD "unknown"
             state := s.getD "unknown"
             message_id := m.getD (-1) }

/-- One invocation input of the handler: the datagram together with the
sender address from `recvfrom`, the local receive time and whether the
`sendto` of the acknowledgment raises. -/
structure Delivery where
  datagram : RawDatagram
  server_ip : String
  server_port : Nat
  receive_time : String
  sendFails : Bool
deriving DecidableEq

/-- A datagram sent on the response socket. -/
structure Ack where
  dest_ip : String
  dest_port : Nat
  payload : String
deriving DecidableEq

/-- The f-string `f"Client {client_id} received message {message_id}"`. -/
def ackPayload (client_id : String) (message_id : Int) : String :=
  "Client " ++ client_id ++ " received message " ++ toString message_id

/-- Observable outcome of one handler invocation. -/
structure HandlerOutput where
  state : ClientState
  acks : List Ack
  accepted : Bool
  decodeError : Bool
deriving DecidableEq

/-- `UDP_Client.handle_received_data`: decode, dedup test
`message_id > last_processed_id`, ratchet update, history append,
acknowledgment send.  A raised exception after the mutations (the
`sendto`) is caught by the outer handler and rolls nothing back. -/
def handle_received_data (st : ClientState) (d : Delivery) : HandlerOutput :=
  match decodeDatagram d.datagram with
  | none =>
      { state := st, acks := [], accepted := false, decodeError := true }
  | some message =>
      if st.last_processed_id < message.message_id then
        { state :=
            { st with
              last_processed_id := message.message_id
              received_messages := st.received_messages ++
                [{ server_ip := d.server_ip
                   server_port := d.server_port
                   timestamp := message.timestamp
                   receive_time := d.receive_time
                   state := message.state
                   message_id := message.message_id }] }
          acks :=
            if d.sendFails then []
            else [{ dest_ip := d.server_ip
                    dest_port := d.server_port
                    payload := ackPayload st.client_id message.message_id }]
          accepted := true
          decodeError := false }
      else
        { state := st, acks := [], accepted := false, decodeError := false }

/-- Sequential handler invocations, collecting the acknowledgments. -/
def handleMany : ClientState → List Delivery → ClientState × List Ack
  | st, [] => (st, [])
  | st, d :: ds =>
      let out := handle_received_data st d
      let rest := handleMany out.state ds
      (rest.1, out.acks ++ rest.2)

/-- `UDP_Client.should_exit`: runtime bound, then message-count bound. -/
def should_exit (st : ClientState) (elapsed_time : Int) : Bool :=
  if 0 < st.max_runtime ∧ st.max_runtime < elapsed_time then
    true
  else if 0 < st.max_messages ∧
      st.max_messages ≤ (st.received_messages.length : Int) then
    true
  else
    false

/-- The resources held by a running listener: the selector registration
of the client socket, the open selector, and the two sockets. -/
structure Resources where
  registered : Bool
  selectorOpen : Bool
  clientSocketOpen : Bool
  responseSocketOpen : Bool
deriving DecidableEq

/-- Resource state after `_initialize_sockets`. -/
def initResources : Resources :=
  { registered := true, selectorOpen := true
    clientSocketOpen := true, responseSocketOpen := true }

/-- The `execution_stats` summary produced by `cleanup`. -/
structure ExecutionStats where
  client_id : String
  port : Nat
  start_time : String
  end_time : String
  runtime_seconds : Int
  messages_received : Nat
  received_messages : List ReceivedRecord
deriving DecidableEq

/-- `UDP_Client.cleanup`: fill the summary from the session state,
unregister the client socket, close the selector and both sockets. -/
def cleanup (st : ClientState) (_res : Resources)
    (start_time end_time : String) (runtime_seconds : Int) :
    ExecutionStats × Resources :=
  ({ client_id := st.client_id
     port := st.client_port
     start_time := start_time
     end_time := end_time
     runtime_seconds := runtime_seconds
     messages_received := st.received_messages.length
     received_messages := st.received_messages },
   { registered := false, selectorOpen := false
     clientSocketOpen := false, responseSocketOpen := false })

/-- One iteration of the `while True` loop in `run_client`: the elapsed
time observed at its start, whether a keyboard interrupt arrives during
it, and the deliveries the selector reports as ready. -/
structure Iteration where
  elapsed_time : Int
  interrupt : Bool
  events : List Delivery
deriving DecidableEq

/-- Outcome of running the loop on a finite schedule of iterations:
either the loop broke out (interrupt or `should_exit`) and `cleanup`
ran — with the iterations never dispatched recorded — or the schedule
ran out with the loop still running. -/
inductive RunResult where
  | stopped (finalState : ClientState) (stats : ExecutionStats)
      (res : Resources) (undispatched : List Iteration) : RunResult
  | running (st : ClientState) (res : Resources) : RunResult
deriving DecidableEq

/-- `UDP_Client.run_client`: on each iteration check `should_exit`
(and the pending interrupt) before polling; dispatch every ready event
to the handler; the `finally` block runs `cleanup` on every exit
path. -/
def run_client (res : Resources) (start_time end_time : String)
    (runtime_seconds : Int) : ClientState → List Iteration → RunResult
  | st, [] => RunResult.running st res
  | st, it :: rest =>
      if it.interrupt || should_exit st it.elapsed_time then
        let c := cleanup st res start_time end_time runtime_seconds
        RunResult.stopped st c.1 c.2 (it :: rest)
      else
        run_client res start_time end_time runtime_seconds
          (handleMany st it.events).1 rest

/-- The record appended by an accepting handler invocation. -/
def recordOf (d : Delivery) (m : BroadcastMessage) : ReceivedRecord :=
  { server_ip := d.server_ip
    server_port := d.server_port
    timestamp := m.timestamp
    receive_time := d.receive_time
    state := m.state
    message_id := m.message_id }

/-- The acknowledgment emitted by an accepting handler invocation. -/
def ackOf (client_id : String) (d : Delivery) (m : BroadcastMessage) : Ack :=
  { dest_ip := d.server_ip
    dest_port := d.server_port
    payload := ackPayload client_id m.message_id }

/-- Case analysis of one handler invocation: either nothing is
accepted and the session state is untouched, or the decoded id beats
the ratchet and exactly one record is appended and one acknowledgment
attempted. -/
theorem handle_cases (st : ClientState) (d : Delivery) :
    ((handle_received_data st d).state = st ∧
      (handle_received_data st d).acks = [] ∧
      (handle_received_data st d).accepted = false) ∨
    (∃ m, decodeDatagram d.datagram = some m ∧
      st.last_processed_id < m.message_id ∧
      (handle_received_data st d).state =
        { st with
          last_processed_id := m.message_id
          received_messages := st.received_messages ++ [recordOf d m] } ∧
      (handle_received_data st d).acks =
        (if d.sendFails then [] else [ackOf st.client_id d m]) ∧
      (handle_received_data st d).accepted = true) := by
  cases hdec : decodeDatagram d.datagram with
  | none =>
      left
      simp [handle_received_data, hdec]
  | some m =>
      by_cases h : st.last_processed_id < m.message_id
      · right
        exact ⟨m, rfl, h,
          by simp [handle_received_data, hdec, h, recordOf],
          by simp [handle_received_data, hdec, h, ackOf],
          by simp [handle_received_data, hdec, h]⟩
      · left
        simp [handle_received_data, hdec, h]

/-- The handler never touches the configuration fields. -/
theorem handle_config (st : ClientState) (d : Delivery) :
    (handle_received_data st d).state.client_id = st.client_id ∧
    (handle_received_data st d).state.client_port = st.client_port ∧
    (handle_received_data st d).state.max_runtime = st.max_runtime ∧
    (handle_received_data st d).state.max_messages = st.max_messages := by
  rcases handle_cases st d with ⟨h, -, -⟩ | ⟨m, -, -, h, -, -⟩ <;> rw [h] <;>
    exact ⟨rfl, rfl, rfl, rfl⟩

/-- The dedup ratchet never decreases across a handler invocation. -/
theorem handle_last_mono (st : ClientState) (d : Delivery) :
    st.last_processed_id ≤ (handle_received_data st d).state.last_processed_id := by
  rcases handle_cases st d with ⟨h, -, -⟩ | ⟨m, -, hlt, h, -, -⟩
  · simp [h]
  · simp [h]
    omega

/-- The message id of the last appended record, `-1` for an empty
history. -/
def lastIdOf (l : List ReceivedRecord) : Int :=
  match l.getLast? with
  | some r => r.message_id
  | none => -1

theorem lastIdOf_nil : lastIdOf [] = -1 := rfl

theorem lastIdOf_concat (l : List ReceivedRecord) (r : ReceivedRecord) :
    lastIdOf (l ++ [r]) = r.message_id := by
  unfold lastIdOf
  rw [List.getLast?_concat]

/-- Strict ordering of records by message id. -/
def recLt (a b : ReceivedRecord) : Prop := a.message_id < b.message_id

instance : DecidableRel recLt := fun a b => by
  unfold recLt; infer_instance

/-- In a strictly increasing history every id is bounded by the id of
the last record. -/
theorem mem_le_lastIdOf :
    ∀ (l : List ReceivedRecord), List.Chain' recLt l →
      ∀ r ∈ l, r.message_id ≤ lastIdOf l
  | [], _, r, hr => absurd hr (List.not_mem_nil r)
  | [a], _, r, hr => by
      rcases List.mem_singleton.mp hr with rfl
      simp [lastIdOf]
  | a :: b :: t, hch, r, hr => by
      rcases List.chain'_cons.mp hch with ⟨hab, hbt⟩
      have hlast : lastIdOf (a :: b :: t) = lastIdOf (b :: t) := by
        unfold lastIdOf
        rw [List.getLast?_cons_cons]
      rcases List.mem_cons.mp hr with rfl | hr'
      · have hb : b.message_id ≤ lastIdOf (b :: t) :=
          mem_le_lastIdOf (b :: t) hbt b (List.mem_cons_self b t)
        rw [hlast]
        exact le_trans (le_of_lt hab) hb
      · rw [hlast]
        exact mem_le_lastIdOf (b :: t) hbt r hr'

/-- Appending a record with a strictly larger id keeps the history
strictly increasing. -/
theorem chainLt_concat :
    ∀ (l : List ReceivedRecord) (r : ReceivedRecord), List.Chain' recLt l →
      (∀ x ∈ l, x.message_id < r.message_id) → List.Chain' recLt (l ++ [r])
  | [], r, _, _ => List.chain'_singleton r
  | [a], r, _, hbig => by
      refine List.chain'_cons.mpr ⟨?_, List.chain'_singleton r⟩
      exact hbig a (List.mem_singleton_self a)
  | a :: b :: t, r, hch, hbig => by
      rcases List.chain'_cons.mp hch with ⟨hab, hbt⟩
      refine List.chain'_cons.mpr ⟨hab, ?_⟩
      exact chainLt_concat (b :: t) r hbt
        (fun x hx => hbig x (List.mem_cons_of_mem a hx))


/-- The session invariant of the listener history: record ids strictly
increase in append order, and the ratchet equals the id of the last
record (`-1` for the empty history). -/
def SessionInv (st : ClientState) : Prop :=
  List.Chain' recLt st.received_messages ∧
  st.last_processed_id = lastIdOf st.received_messages

instance (st : ClientState) : Decidable (SessionInv st) := by
  unfold SessionInv; infer_instance

theorem sessionInv_init (cid : String) (cp : Nat) (mr mm : Int) :
    SessionInv (initState cid cp mr mm) :=
  ⟨List.chain'_nil, rfl⟩

/-- One handler invocation preserves the session invariant. -/
theorem sessionInv_step (st : ClientState) (d : Delivery)
    (hinv : SessionInv st) : SessionInv (handle_received_data st d).state := by
  rcases handle_cases st d with ⟨h, -, -⟩ | ⟨m, -, hlt, h, -, -⟩
  · rw [h]; exact hinv
  · rcases hinv with ⟨hch, hlast⟩
    rw [h]
    constructor
    · apply chainLt_concat st.received_messages (recordOf d m) hch
      intro x hx
      have hxle : x.message_id ≤ lastIdOf st.received_messages :=
        mem_le_lastIdOf st.received_messages hch x hx
      have : x.message_id ≤ st.last_processed_id := by rw [hlast]; exact hxle
      calc x.message_id ≤ st.last_processed_id := this
        _ < m.message_id := hlt
  -- `(recordOf d m).message_id = m.message_id` by definition
    · show m.message_id = lastIdOf (st.received_messages ++ [recordOf d m])
      rw [lastIdOf_concat]
      simp [recordOf]

/-- The session invariant holds after any batch of invocations on an
invariant-satisfying state. -/
theorem sessionInv_many :
    ∀ (ds : List Delivery) (st : ClientState), SessionInv st →
      SessionInv (handleMany st ds).1
  | [], st, hinv => hinv
  | d :: ds, st, hinv => by
      have h1 := sessionInv_step st d hinv
      simpa [handleMany] using
        sessionInv_many ds (handle_received_data st d).state h1

/-- The ratchet never decreases across a batch of invocations. -/
theorem last_mono_many :
    ∀ (ds : List Delivery) (st : ClientState),
      st.last_processed_id ≤ (handleMany st ds).1.last_processed_id
  | [], st => le_refl _
  | d :: ds, st => by
      have h1 := handle_last_mono st d
      have h2 := last_mono_many ds (handle_received_data st d).state
      simpa [handleMany] using le_trans h1 h2

/-- The client id is constant across a batch of invocations. -/
theorem client_id_many :
    ∀ (ds : List Delivery) (st : ClientState),
      (handleMany st ds).1.client_id = st.client_id
  | [], st => rfl
  | d :: ds, st => by
      have h1 := (handle_config st d).1
      have h2 := client_id_many ds (handle_received_data st d).state
      simpa [handleMany] using h2.trans h1

/-- A batch of invocations appends some list of new records, and (when
every acknowledgment send succeeds) emits exactly one acknowledgment
per appended record, addressed to the source recorded in that record
and carrying the payload for its id. -/
theorem handleMany_records_acks :
    ∀ (ds : List Delivery) (st : ClientState),
      (∀ d ∈ ds, d.sendFails = false) →
      ∃ new, (handleMany st ds).1.received_messages =
          st.received_messages ++ new ∧
        (handleMany st ds).2 = new.map
          (fun r => { dest_ip := r.server_ip, dest_port := r.server_port,
                      payload := ackPayload st.client_id r.message_id })
  | [], st, _ => ⟨[], by simp [handleMany]⟩
  | d :: ds, st, hsf => by
      have hsd : d.sendFails = false := hsf d (List.mem_cons_self d ds)
      have hst : ∀ d' ∈ ds, d'.sendFails = false :=
        fun d' hd' => hsf d' (List.mem_cons_of_mem d hd')
      rcases handle_cases st d with ⟨h, hacks, -⟩ | ⟨m, -, -, h, hacks, -⟩
      · rcases handleMany_records_acks ds (handle_received_data st d).state hst
          with ⟨new, hrec, hack⟩
        rw [h] at hrec hack
        refine ⟨new, ?_, ?_⟩
        · rw [show (handleMany st (d :: ds)).1 =
              (handleMany (handle_received_data st d).state ds).1 from rfl, h]
          exact hrec
        · rw [show (handleMany st (d :: ds)).2 =
              (handle_received_data st d).acks ++
                (handleMany (handle_received_data st d).state ds).2 from rfl,
            hacks, h]
          simpa using hack
      · rcases handleMany_records_acks ds (handle_received_data st d).state hst
          with ⟨new, hrec, hack⟩
        refine ⟨recordOf d m :: new, ?_, ?_⟩
        · rw [show (handleMany st (d :: ds)).1 =
              (handleMany (handle_received_data st d).state ds).1 from rfl]
          rw [hrec, h]
          simp
        · rw [show (handleMany st (d :: ds)).2 =
              (handle_received_data st d).acks ++
                (handleMany (handle_received_data st d).state ds).2 from rfl]
          rw [hack, hacks, hsd]
          have hcid : (handle_received_data st d).state.client_id =
              st.client_id := (handle_config st d).1
          rw [hcid]
          simp [ackOf, recordOf]

/-- In a strictly increasing history every record after the head has a
strictly larger id than the head. -/
theorem chainLt_head_lt :
    ∀ (a : ReceivedRecord) (t : List ReceivedRecord),
      List.Chain' recLt (a :: t) → ∀ x ∈ t, a.message_id < x.message_id
  | _, [], _, x, hx => absurd hx (List.not_mem_nil x)
  | a, b :: t, hch, x, hx => by
      rcases List.chain'_cons.mp hch with ⟨hab, hbt⟩
      rcases List.mem_cons.mp hx with rfl | hx'
      · exact hab
      · exact lt_trans hab (chainLt_head_lt b t hbt x hx')

/-- A strictly increasing history holds at most one record per id. -/
theorem count_le_one_of_chainLt (m : Int) :
    ∀ (l : List ReceivedRecord), List.Chain' recLt l →
      l.countP (fun r => r.message_id == m) ≤ 1
  | [], _ => by simp
  | a :: t, hch => by
      have hht := chainLt_head_lt a t hch
      have htch : List.Chain' recLt t := (List.chain'_cons'.mp hch).2
      rw [List.countP_cons]
      by_cases ha : a.message_id = m
      · have hzero : t.countP (fun r => r.message_id == m) = 0 := by
          rw [List.countP_eq_zero]
          intro x hx
          have hgt := hht x hx
          simp only [beq_iff_eq]
          omega
        simp [hzero, ha]
      · have hle := count_le_one_of_chainLt m t htch
        simp only [beq_iff_eq, ha, if_false]
        omega

/-- The dedup ratchet equals the running maximum of the recorded ids,
seeded with the initial value `-1`. -/
def TracksMax (st : ClientState) : Prop :=
  st.last_processed_id =
    (st.received_messages.map (fun r => r.message_id)).foldl max (-1)

theorem tracksMax_init (cid : String) (cp : Nat) (mr mm : Int) :
    TracksMax (initState cid cp mr mm) := rfl

theorem tracksMax_step (st : ClientState) (d : Delivery)
    (h : TracksMax st) : TracksMax (handle_received_data st d).state := by
  unfold TracksMax at h ⊢
  rcases handle_cases st d with ⟨hs, -, -⟩ | ⟨m, -, hlt, hs, -, -⟩
  · rw [hs]; exact h
  · rw [hs]
    show m.message_id =
      ((st.received_messages ++ [recordOf d m]).map
        (fun r => r.message_id)).foldl max (-1)
    rw [List.map_append, List.foldl_append]
    show m.message_id =
      max ((st.received_messages.map (fun r => r.message_id)).foldl max (-1))
        (recordOf d m).message_id
    rw [← h]
    show m.message_id = max st.last_processed_id m.message_id
    exact (max_eq_right (le_of_lt hlt)).symm

theorem tracksMax_many :
    ∀ (ds : List Delivery) (st : ClientState), TracksMax st →
      TracksMax (handleMany st ds).1
  | [], _, h => h
  | d :: ds, st, h => by
      have h1 := tracksMax_step st d h
      simpa [handleMany] using
        tracksMax_many ds (handle_received_data st d).state h1

theorem run_client_nil (res : Resources) (startT endT : String) (rt : Int)
    (st : ClientState) :
    run_client res startT endT rt st [] = RunResult.running st res := rfl

theorem run_client_cons (res : Resources) (startT endT : String) (rt : Int)
    (st : ClientState) (it : Iteration) (rest : List Iteration) :
    run_client res startT endT rt st (it :: rest) =
      if it.interrupt || should_exit st it.elapsed_time then
        RunResult.stopped st (cleanup st res startT endT rt).1
          (cleanup st res startT endT rt).2 (it :: rest)
      else
        run_client res startT endT rt (handleMany st it.events).1 rest := rfl

/-- C1: for every listener session state and every decoded datagram,
the receive handler accepts the message iff its id strictly exceeds
`last_processed_id`; acceptance sets `last_processed_id` to that id and
appends the record; a rejected message leaves the whole session state
unchanged and sends no acknowledgment. -/
theorem c1_accept_iff_newer (st : ClientState) (d : Delivery)
    (m : BroadcastMessage) (hdec : decodeDatagram d.datagram = some m) :
    ((handle_received_data st d).accepted = true ↔
      st.last_processed_id < m.message_id) ∧
    ((handle_received_data st d).accepted = true →
      (handle_received_data st d).state.last_processed_id = m.message_id ∧
      (handle_received_data st d).state.received_messages =
        st.received_messages ++ [recordOf d m]) ∧
    ((handle_received_data st d).accepted = false →
      (handle_received_data st d).state = st ∧
      (handle_received_data st d).acks = []) := by
  by_cases h : st.last_processed_id < m.message_id <;>
    simp [handle_received_data, hdec, h, recordOf]

def c1State : ClientState :=
  (handle_received_data (initState "w1" 37020 300 0)
    ⟨RawDatagram.wellFormed (some "t5") (some "ACTIVE") (some 5),
     "10.0.0.2", 41000, "r5", false⟩).state

def c1Del (n : Int) : Delivery :=
  ⟨RawDatagram.wellFormed (some "t") (some "STANDBY") (some n),
   "10.0.0.2", 41000, "r", false⟩

/-- Witness for C1 at a session that has accepted id 5: a delivered
id 3 is rejected with no state change and no acknowledgment, a
delivered id 6 is accepted. -/
theorem c1_accept_iff_newer_witness :
    ((handle_received_data c1State (c1Del 3)).accepted = false ∧
      (handle_received_data c1State (c1Del 3)).state = c1State ∧
      (handle_received_data c1State (c1Del 3)).acks = []) ∧
    (handle_received_data c1State (c1Del 6)).accepted = true := by
  have h3 := c1_accept_iff_newer c1State (c1Del 3)
    { timestamp := "t", state := "STANDBY", message_id := 3 } rfl
  have h6 := c1_accept_iff_newer c1State (c1Del 6)
    { timestamp := "t", state := "STANDBY", message_id := 6 } rfl
  have hlast : c1State.last_processed_id = 5 := by decide
  have hacc3 : (handle_received_data c1State (c1Del 3)).accepted = false := by
    cases hb : (handle_received_data c1State (c1Del 3)).accepted
    · rfl
    · exact absurd (h3.1.mp hb) (by rw [hlast]; decide)
  refine ⟨⟨hacc3, (h3.2.2 hacc3).1, (h3.2.2 hacc3).2⟩, ?_⟩
  exact h6.1.mpr (by rw [hlast]; decide)

/-- C3: an undecodable datagram makes the handler report a decode
error and discard it — session state unchanged, no acknowledgment —
and the event loop survives the iteration and keeps running. -/
theorem c3_decode_error_resilient (st : ClientState) (ip : String) (p : Nat)
    (rt : String) (sf : Bool) (res : Resources) (startT endT : String)
    (runtime e : Int) (hexit : should_exit st e = false) :
    handle_received_data st ⟨RawDatagram.malformed, ip, p, rt, sf⟩ =
      { state := st, acks := [], accepted := false, decodeError := true } ∧
    run_client res startT endT runtime st
        [⟨e, false, [⟨RawDatagram.malformed, ip, p, rt, sf⟩]⟩] =
      RunResult.running st res := by
  constructor
  · simp [handle_received_data, decodeDatagram]
  · rw [run_client_cons]
    simp [hexit, handleMany, handle_received_data, decodeDatagram, run_client]

/-- Witness for C3: a fresh session with default bounds at elapsed
time 0 is not exiting, so the malformed datagram leaves it running. -/
theorem c3_decode_error_resilient_witness :
    handle_received_data (initState "w3" 37020 300 0)
        ⟨RawDatagram.malformed, "10.4.4.4", 40004, "r", false⟩ =
      { state := initState "w3" 37020 300 0, acks := [], accepted := false,
        decodeError := true } ∧
    run_client initResources "s" "e" 1 (initState "w3" 37020 300 0)
        [⟨0, false, [⟨RawDatagram.malformed, "10.4.4.4", 40004, "r", false⟩]⟩] =
      RunResult.running (initState "w3" 37020 300 0) initResources :=
  c3_decode_error_resilient (initState "w3" 37020 300 0) "10.4.4.4" 40004
    "r" false initResources "s" "e" 1 0 (by decide)

/-- C4: the exit check returns true iff the runtime bound is set and
exceeded or the message bound is set and met; with both bounds 0 it
never fires. -/
theorem c4_should_exit_iff (st : ClientState) (e : Int) :
    (should_exit st e = true ↔
      (0 < st.max_runtime ∧ st.max_runtime < e) ∨
      (0 < st.max_messages ∧
        st.max_messages ≤ (st.received_messages.length : Int))) ∧
    (st.max_runtime = 0 → st.max_messages = 0 → should_exit st e = false) := by
  unfold should_exit
  constructor
  · split_ifs with h1 h2
    · simp [h1]
    · simp [h1, h2]
    · simp [h1, h2]
  · intro hr hm
    split_ifs with h1 h2
    · omega
    · omega
    · rfl

/-- Witness for C4: with both bounds 0 the check is false even at a
huge elapsed time. -/
theorem c4_should_exit_iff_witness :
    should_exit (initState "w4" 37020 0 0) 1000000 = false :=
  (c4_should_exit_iff (initState "w4" 37020 0 0) 1000000).2 rfl rfl

/-- C6: an accepted message triggers exactly one acknowledgment to the
sender address and port, with the exact payload
`Client {client_id} received message {message_id}`; if the send fails,
the already-updated ratchet and the appended record stay in place. -/
theorem c6_ack_exact_best_effort (st : ClientState) (dg : RawDatagram)
    (m : BroadcastMessage) (ip : String) (p : Nat) (rt : String)
    (hdec : decodeDatagram dg = some m)
    (hnew : st.last_processed_id < m.message_id) :
    (handle_received_data st ⟨dg, ip, p, rt, false⟩).acks =
      [{ dest_ip := ip, dest_port := p,
         payload := "Client " ++ st.client_id ++ " received message " ++
           toString m.message_id }] ∧
    (handle_received_data st ⟨dg, ip, p, rt, true⟩).acks = [] ∧
    (handle_received_data st ⟨dg, ip, p, rt, true⟩).state =
      (handle_received_data st ⟨dg, ip, p, rt, false⟩).state ∧
    (handle_received_data st ⟨dg, ip, p, rt, true⟩).state.last_processed_id =
      m.message_id ∧
    (handle_received_data st ⟨dg, ip, p, rt, true⟩).state.received_messages =
      st.received_messages ++
        [{ server_ip := ip, server_port := p, timestamp := m.timestamp,
           receive_time := rt, state := m.state,
           message_id := m.message_id }] := by
  simp [handle_received_data, hdec, hnew, ackPayload]

/-- Witness for C6: the fresh session accepts id 0 and acknowledges it
to the sender with the exact payload. -/
theorem c6_ack_exact_best_effort_witness :
    (handle_received_data (initState "c6" 37020 300 0)
        ⟨RawDatagram.wellFormed (some "t0") (some "ACTIVE") (some 0),
         "192.168.1.7", 54321, "r0", false⟩).acks =
      [{ dest_ip := "192.168.1.7", dest_port := 54321,
         payload := "Client " ++ "c6" ++ " received message " ++
           toString (0 : Int) }] :=
  (c6_ack_exact_best_effort (initState "c6" 37020 300 0)
    (RawDatagram.wellFormed (some "t0") (some "ACTIVE") (some 0))
    { timestamp := "t0", state := "ACTIVE", message_id := 0 }
    "192.168.1.7" 54321 "r0" rfl (by decide)).1

/-- C7: a datagram that parses as the structured format decodes with
sentinel defaults for missing fields — never a decode error — while
total malformation is the only hard decode failure. -/
theorem c7_sentinel_defaults (t s : Option String) (mi : Option Int)
    (st : ClientState) (ip : String) (p : Nat) (rt : String) (sf : Bool) :
    decodeDatagram (RawDatagram.wellFormed t s mi) =
      some { timestamp := t.getD "unknown", state := s.getD "unknown",
             message_id := mi.getD (-1) } ∧
    decodeDatagram (RawDatagram.wellFormed none none none) =
      some { timestamp := "unknown", state := "unknown", message_id := -1 } ∧
    (handle_received_data st
        ⟨RawDatagram.wellFormed t s mi, ip, p, rt, sf⟩).decodeError = false ∧
    decodeDatagram RawDatagram.malformed = none := by
  refine ⟨rfl, rfl, ?_, rfl⟩
  by_cases h : st.last_processed_id < mi.getD (-1) <;>
    simp [handle_received_data, decodeDatagram, h]

/-- C9: starting from the initial session state, every handler
invocation preserves the invariant that the recorded message ids
strictly increase in append order and `last_processed_id` equals the
id of the last appended record, or -1 when the history is empty. -/
theorem c9_session_invariant (cid : String) (cp : Nat) (mr mm : Int) :
    SessionInv (initState cid cp mr mm) ∧
    ∀ (st : ClientState) (d : Delivery), SessionInv st →
      SessionInv (handle_received_data st d).state :=
  ⟨sessionInv_init cid cp mr mm, sessionInv_step⟩

/-- Witness for C9: the invariant survives an accepting invocation on
the fresh session. -/
theorem c9_session_invariant_witness :
    SessionInv (handle_received_data (initState "w9" 37020 300 0)
      ⟨RawDatagram.wellFormed (some "t") (some "ACTIVE") (some 2),
       "10.1.1.1", 40000, "r", false⟩).state :=
  (c9_session_invariant "w9" 37020 300 0).2 (initState "w9" 37020 300 0)
    ⟨RawDatagram.wellFormed (some "t") (some "ACTIVE") (some 2),
     "10.1.1.1", 40000, "r", false⟩
    (c9_session_invariant "w9" 37020 300 0).1

/-- C10: in every session state reachable from the initial one, a
decoded message id at most -1 — in particular the default -1 of a
missing `message_id` field — is never accepted: no record, no
acknowledgment, no state change. -/
theorem c10_nonpositive_id_never_accepted (cid : String) (cp : Nat)
    (mr mm : Int) (ds : List Delivery) (d : Delivery) (m : BroadcastMessage)
    (hdec : decodeDatagram d.datagram = some m)
    (hle : m.message_id ≤ -1) :
    handle_received_data (handleMany (initState cid cp mr mm) ds).1 d =
      { state := (handleMany (initState cid cp mr mm) ds).1, acks := [],
        accepted := false, decodeError := false } := by
  have hmono := last_mono_many ds (initState cid cp mr mm)
  have hinit : (initState cid cp mr mm).last_processed_id = -1 := rfl
  rw [hinit] at hmono
  have hnot : ¬ ((handleMany (initState cid cp mr mm) ds).1.last_processed_id
      < m.message_id) := by omega
  simp [handle_received_data, hdec, hnot]

/-- Witness for C10: a datagram with no id field is dropped by the
fresh session. -/
theorem c10_nonpositive_id_never_accepted_witness :
    handle_received_data (handleMany (initState "w10" 37020 300 0) []).1
        ⟨RawDatagram.wellFormed (some "t") none none,
         "10.2.2.2", 40001, "r", false⟩ =
      { state := (handleMany (initState "w10" 37020 300 0) []).1, acks := [],
        accepted := false, decodeError := false } :=
  c10_nonpositive_id_never_accepted "w10" 37020 300 0 []
    ⟨RawDatagram.wellFormed (some "t") none none,
     "10.2.2.2", 40001, "r", false⟩
    { timestamp := "t", state := "unknown", message_id := -1 }
    rfl (by decide)

def c2Del (n : Int) : Delivery :=
  ⟨RawDatagram.wellFormed (some "t") (some "ACTIVE") (some n),
   "10.3.3.3", 40002, "r", false⟩

/-- C2 as stated fails: on a session that has already accepted id 9,
delivering id 5 twice yields zero records and zero acknowledgments for
id 5, not exactly one of each. -/
theorem c2_counterexample :
    ¬ (((handleMany (initState "c2" 37020 300 0)
          [c2Del 9, c2Del 5, c2Del 5]).1.received_messages.countP
            (fun r => r.message_id == 5)) = 1 ∧
       ((handleMany (initState "c2" 37020 300 0)
          [c2Del 9, c2Del 5, c2Del 5]).2.countP
            (fun a => a.payload == ackPayload "c2" 5)) = 1) := by
  decide

/-- C2 amended: across any delivery sequence from the initial session
state (all acknowledgment sends succeeding), each message id yields at
most one appended record; the acknowledgments correspond one-to-one to
the appended records, one per accepted id; `last_processed_id` equals
the running maximum of the accepted ids seeded at -1, and it never
decreases across handler invocations. -/
theorem c2_dedup_amended (cid : String) (cp : Nat) (mr mm : Int)
    (ds : List Delivery) (m : Int)
    (hsf : ∀ d ∈ ds, d.sendFails = false) :
    (handleMany (initState cid cp mr mm) ds).1.received_messages.countP
        (fun r => r.message_id == m) ≤ 1 ∧
    (handleMany (initState cid cp mr mm) ds).2 =
      (handleMany (initState cid cp mr mm) ds).1.received_messages.map
        (fun r => { dest_ip := r.server_ip, dest_port := r.server_port,
                    payload := ackPayload cid r.message_id }) ∧
    (handleMany (initState cid cp mr mm) ds).1.last_processed_id =
      ((handleMany (initState cid cp mr mm) ds).1.received_messages.map
        (fun r => r.message_id)).foldl max (-1) ∧
    (∀ (st : ClientState) (d : Delivery),
      st.last_processed_id ≤
        (handle_received_data st d).state.last_processed_id) := by
  refine ⟨?_, ?_, ?_, handle_last_mono⟩
  · exact count_le_one_of_chainLt m _
      (sessionInv_many ds _ (sessionInv_init cid cp mr mm)).1
  · rcases handleMany_records_acks ds (initState cid cp mr mm) hsf with
      ⟨new, hrec, hack⟩
    rw [hack, hrec]
    simp [initState]
  · exact tracksMax_many ds _ (tracksMax_init cid cp mr mm)

/-- Witness for C2 amended: delivering id 7 twice leaves at most one
record for id 7. -/
theorem c2_dedup_amended_witness :
    (handleMany (initState "w2" 37020 300 0)
        [c2Del 7, c2Del 7]).1.received_messages.countP
      (fun r => r.message_id == 7) ≤ 1 :=
  (c2_dedup_amended "w2" 37020 300 0 [c2Del 7, c2Del 7] 7 (by decide)).1

/-- C5: with `max_messages = 3`, once the third message is accepted
the loop stops at the very next iteration — whatever `max_runtime`
is — running cleanup, with no iteration (hence no datagram) dispatched
from that point on. -/
theorem c5_stops_after_third (st : ClientState) (d : Delivery)
    (res : Resources) (startT endT : String) (runtime : Int)
    (it : Iteration) (rest : List Iteration)
    (hmm : st.max_messages = 3)
    (hlen : st.received_messages.length = 2)
    (hacc : (handle_received_data st d).accepted = true) :
    (handle_received_data st d).state.received_messages.length = 3 ∧
    run_client res startT endT runtime (handle_received_data st d).state
        (it :: rest) =
      RunResult.stopped (handle_received_data st d).state
        (cleanup (handle_received_data st d).state res startT endT runtime).1
        (cleanup (handle_received_data st d).state res startT endT runtime).2
        (it :: rest) ∧
    (cleanup (handle_received_data st d).state res startT endT
        runtime).1.messages_received = 3 ∧
    (cleanup (handle_received_data st d).state res startT endT runtime).2 =
      { registered := false, selectorOpen := false,
        clientSocketOpen := false, responseSocketOpen := false } := by
  have hlen3 : (handle_received_data st d).state.received_messages.length = 3 := by
    rcases handle_cases st d with ⟨-, -, hfalse⟩ | ⟨m, -, -, hs, -, -⟩
    · rw [hacc] at hfalse; cases hfalse
    · rw [hs]; simp [hlen]
  have hmm' : (handle_received_data st d).state.max_messages = 3 := by
    rw [(handle_config st d).2.2.2, hmm]
  have hse : should_exit (handle_received_data st d).state it.elapsed_time
      = true := by
    unfold should_exit
    split_ifs with h1 h2
    · rfl
    · rfl
    · exfalso
      apply h2
      refine ⟨?_, ?_⟩
      · rw [hmm']; norm_num
      · rw [hmm', hlen3]; norm_num
  have hor : (it.interrupt ||
      should_exit (handle_received_data st d).state it.elapsed_time) = true := by
    rw [hse, Bool.or_true]
  refine ⟨hlen3, ?_, hlen3, rfl⟩
  rw [run_client_cons]
  simp [hor]

def c5Del (n : Int) : Delivery :=
  ⟨RawDatagram.wellFormed (some "t") (some "ACTIVE") (some n),
   "10.5.5.5", 40005, "r", false⟩

def c5State : ClientState :=
  (handleMany (initState "w5" 37020 300 3) [c5Del 0, c5Del 1]).1

/-- Witness for C5: a listener with `max_messages = 3` that accepted
ids 0 and 1 stops right after accepting id 2. -/
theorem c5_stops_after_third_witness :
    (handle_received_data c5State (c5Del 2)).state.received_messages.length
        = 3 ∧
    run_client initResources "s" "e" 12
        (handle_received_data c5State (c5Del 2)).state [⟨1, false, []⟩] =
      RunResult.stopped (handle_received_data c5State (c5Del 2)).state
        (cleanup (handle_received_data c5State (c5Del 2)).state initResources
          "s" "e" 12).1
        (cleanup (handle_received_data c5State (c5Del 2)).state initResources
          "s" "e" 12).2
        [⟨1, false, []⟩] :=
  ⟨(c5_stops_after_third c5State (c5Del 2) initResources "s" "e" 12
      ⟨1, false, []⟩ [] (by decide) (by decide) (by decide)).1,
   (c5_stops_after_third c5State (c5Del 2) initResources "s" "e" 12
      ⟨1, false, []⟩ [] (by decide) (by decide) (by decide)).2.1⟩

/-- C8: every exit of the event loop — liveness bound or interrupt —
runs cleanup: any stopped outcome carries released resources and a
summary whose fields come from the final session state, and both exit
triggers produce exactly that stopped outcome. -/
theorem c8_cleanup_on_every_exit (res : Resources) (startT endT : String)
    (runtime : Int) :
    (∀ (script : List Iteration) (st fs : ClientState)
        (stats : ExecutionStats) (res' : Resources) (und : List Iteration),
      run_client res startT endT runtime st script =
          RunResult.stopped fs stats res' und →
      stats.client_id = fs.client_id ∧
      stats.runtime_seconds = runtime ∧
      stats.messages_received = fs.received_messages.length ∧
      stats.received_messages = fs.received_messages ∧
      res' = { registered := false, selectorOpen := false,
               clientSocketOpen := false, responseSocketOpen := false }) ∧
    (∀ (st : ClientState) (it : Iteration) (rest : List Iteration),
      it.interrupt = true →
      run_client res startT endT runtime st (it :: rest) =
        RunResult.stopped st (cleanup st res startT endT runtime).1
          (cleanup st res startT endT runtime).2 (it :: rest)) ∧
    (∀ (st : ClientState) (it : Iteration) (rest : List Iteration),
      should_exit st it.elapsed_time = true →
      run_client res startT endT runtime st (it :: rest) =
        RunResult.stopped st (cleanup st res startT endT runtime).1
          (cleanup st res startT endT runtime).2 (it :: rest)) := by
  refine ⟨?_, ?_, ?_⟩
  · intro script
    induction script with
    | nil =>
        intro st fs stats res' und h
        rw [run_client_nil] at h
        cases h
    | cons it rest ih =>
        intro st fs stats res' und h
        rw [run_client_cons] at h
        by_cases hc : (it.interrupt || should_exit st it.elapsed_time) = true
        · rw [if_pos hc] at h
          cases h
          exact ⟨rfl, rfl, rfl, rfl, rfl⟩
        · rw [if_neg hc] at h
          exact ih _ _ _ _ _ h
  · intro st it rest hint
    rw [run_client_cons]
    simp [hint]
  · intro st it rest hse
    rw [run_client_cons]
    simp [hse]

/-- Witness for C8: an interrupt on the first iteration stops the
fresh listener with cleanup run. -/
theorem c8_cleanup_on_every_exit_witness :
    run_client initResources "s" "e" 12 (initState "w8" 37020 300 0)
        [⟨0, true, []⟩] =
      RunResult.stopped (initState "w8" 37020 300 0)
        (cleanup (initState "w8" 37020 300 0) initResources "s" "e" 12).1
        (cleanup (initState "w8" 37020 300 0) initResources "s" "e" 12).2
        [⟨0, true, []⟩] :=
  (c8_cleanup_on_every_exit initResources "s" "e" 12).2.1
    (initState "w8" 37020 300 0) ⟨0, true, []⟩ [] rfl
